import Mathlib

/-!
Verification of the dbxincluder XInclude/DocBook transclusion core.

Shallow embedding of `src/dbxincluder/xinclude.py` and
`src/dbxincluder/docbook.py`.  lxml elements become the inductive type
`Elem`; in-place mutation becomes explicit state passing; Python
exceptions become `Except PyErr`; the pluggable resource loader and the
XML parser (out-of-scope collaborators per the design) become function
parameters.  Python local-variable and truthiness semantics are modelled
explicitly (`PyErr.unboundLocal`, `truthy`).
-/

/-- A qualified name: optional namespace URI plus local name
(lxml stores attribute/tag names in Clark notation; we keep them
structured). -/
structure QNm where
  ns : Option String
  nm : String
deriving DecidableEq

/-- An lxml element: tag (`none` for non-element nodes such as comments,
mirroring `isinstance(elem.tag, str)` checks), ordered attribute list,
leading text, trailing tail, ordered children. -/
inductive Elem where
  | mk : Option QNm → List (QNm × String) → Option String → Option String → List Elem → Elem

def Elem.tag : Elem → Option QNm
  | .mk t _ _ _ _ => t

def Elem.attrs : Elem → List (QNm × String)
  | .mk _ a _ _ _ => a

def Elem.text : Elem → Option String
  | .mk _ _ x _ _ => x

def Elem.tail : Elem → Option String
  | .mk _ _ _ x _ => x

def Elem.children : Elem → List Elem
  | .mk _ _ _ _ c => c

def Elem.withAttrs : Elem → List (QNm × String) → Elem
  | .mk t _ x y c, a => .mk t a x y c

def Elem.withText : Elem → Option String → Elem
  | .mk t a _ y c, x => .mk t a x y c

def Elem.withTail : Elem → Option String → Elem
  | .mk t a x _ c, y => .mk t a x y c

def Elem.withChildren : Elem → List Elem → Elem
  | .mk t a x y _, c => .mk t a x y c

/-- Modelled from the spec: the fixed namespace URIs kept in the `NS`
table of the missing `utils` module.  Only their identity and mutual
distinctness matter to the code under `src/`. -/
def ns_xi : String := "http://www.w3.org/2001/XInclude"

def ns_db : String := "http://docbook.org/ns/docbook"

def ns_xml : String := "http://www.w3.org/XML/1998/namespace"

def ns_trans : String := "http://docbook.org/ns/transclusion"

def ns_local : String := "http://www.w3.org/2001/XInclude/local-attributes"

def ns_dbxi : String := "dbxincluder-scratch"

def qn_xml_id : QNm := ⟨some ns_xml, "id"⟩

def qn_xml_base : QNm := ⟨some ns_xml, "base"⟩

def qn_xi_include : QNm := ⟨some ns_xi, "include"⟩

def qn_xi_fallback : QNm := ⟨some ns_xi, "fallback"⟩

def qn_newid : QNm := ⟨some ns_dbxi, "newid"⟩

def qn_idfixup : QNm := ⟨some ns_trans, "idfixup"⟩

def qn_linkscope : QNm := ⟨some ns_trans, "linkscope"⟩

def qn_suffix : QNm := ⟨some ns_trans, "suffix"⟩

/-- `elem.get(name)`: first attribute with the given qualified name. -/
def getAttr (e : Elem) (q : QNm) : Option String :=
  (e.attrs.find? (fun p => p.1 == q)).map Prod.snd

/-- `elem.set(name, value)` on an attribute list: replace in place
(keeping position, as lxml does) or append. -/
def setAttrList : List (QNm × String) → QNm → String → List (QNm × String)
  | [], q, v => [(q, v)]
  | (q', v') :: rest, q, v =>
      if q' = q then (q, v) :: rest else (q', v') :: setAttrList rest q v

def setAttr (e : Elem) (q : QNm) (v : String) : Elem :=
  e.withAttrs (setAttrList e.attrs q v)

/-- `del elem.attrib[name]`. -/
def delAttr (e : Elem) (q : QNm) : Elem :=
  e.withAttrs (e.attrs.filter (fun p => p.1 != q))

/-- Python truthiness of an optional string (`None` and `""` are falsy). -/
def truthy : Option String → Bool
  | none => false
  | some s => s ≠ ""

/-- Errors surfacing from the Python code: `DBXIException`,
`ResourceError`, failed `assert`s, `TypeError` (e.g. `None + str`),
`UnboundLocalError`, index errors, and exhaustion of the recursion fuel
of the model. -/
inductive PyErr where
  | dbxi (msg : String)
  | resource (msg : String)
  | assertFail (msg : String)
  | typeErr
  | unboundLocal
  | indexErr
  | noFuel
deriving DecidableEq

/-- `append_to_text(elem, string)`; the argument may be Python `None`,
and `elem.text += string` raises `TypeError` when `text` is truthy and
`string` is `None`. -/
def append_to_text (e : Elem) (s : Option String) : Except PyErr Elem :=
  match e.text with
  | some t =>
      if t ≠ "" then
        match s with
        | some str => .ok (e.withText (some (t ++ str)))
        | none => .error .typeErr
      else .ok (e.withText s)
  | none => .ok (e.withText s)

/-- `append_to_tail(elem, string)`, same conventions as
`append_to_text`. -/
def append_to_tail (e : Elem) (s : Option String) : Except PyErr Elem :=
  match e.tail with
  | some t =>
      if t ≠ "" then
        match s with
        | some str => .ok (e.withTail (some (t ++ str)))
        | none => .error .typeErr
      else .ok (e.withTail s)
  | none => .ok (e.withTail s)

/-- A single-quote character, as produced by Python `repr` on a string. -/
def pyq : String := String.singleton (Char.ofNat 39)

/-- Python `repr` of a string (quoting only; escaping is irrelevant to
the guard keys built from it). -/
def pyrepr (s : String) : String := pyq ++ s ++ pyq

/-- Python `repr` of an optional string (`repr(None) = "None"`). -/
def reprOpt : Option String → String
  | none => "None"
  | some s => pyrepr s

/-- Python `str.split("/")` on the character list (re-implemented
structurally; `String.splitOn` of the library is compiled by
well-founded recursion and does not reduce). -/
def splitSlashChars : List Char → List (List Char)
  | [] => [[]]
  | c :: cs =>
      let r := splitSlashChars cs
      if c = Char.ofNat 47 then [] :: r
      else
        match r with
        | [] => [[c]]
        | h :: t => (c :: h) :: t

/-- Python `"/".join(...)`. -/
def joinSlash : List String → String
  | [] => ""
  | [s] => s
  | s :: rest => s ++ "/" ++ joinSlash rest

/-- `"/".join(base_url.split("/")[:-1]) + "/" + href` from
`get_target`. -/
def build_url (base_url href : String) : String :=
  joinSlash (((splitSlashChars base_url.toList).map String.mk).dropLast) ++ "/" ++ href

/-- The recursion-guard key `"{0!r}>{1!r}".format(url, fragid)` from
`handle_xinclude`. -/
def mkKey (url : String) (fragid : Option String) : String :=
  pyrepr url ++ ">" ++ reprOpt fragid

/-- Attribute lookup on a raw attribute list. -/
def attrOf (a : List (QNm × String)) (q : QNm) : Option String :=
  (a.find? (fun p => p.1 == q)).map Prod.snd

/-- `./*[@xml:id='v']`: the direct element children of `e` whose
`xml:id` equals `v`, in document order. -/
def childrenWithId (e : Elem) (v : String) : List Elem :=
  e.children.filter (fun c => c.tag.isSome && getAttr c qn_xml_id == some v)

mutual

/-- `//*[@xml:id='v']` evaluated from a document root: all elements of
the document (the root included) whose `xml:id` equals `v`, in document
order. -/
def searchAll : Elem → String → List Elem
  | .mk t a x y cs, v =>
      (if t.isSome && attrOf a qn_xml_id == some v then [Elem.mk t a x y cs] else [])
        ++ searchAllL cs v

def searchAllL : List Elem → String → List Elem
  | [], _ => []
  | c :: cs, v => searchAll c v ++ searchAllL cs v

end

mutual

/-- `//*[@xml:id='v']` paired with each match's effective
`ancestor-or-self::*[@xml:base][1]/@xml:base`, threaded down from the
root (`inh` is the nearest base above the current node). Used for the
`fragid` lookup in `handle_xinclude`. -/
def findByIdB : Option String → Elem → String → List (Elem × Option String)
  | inh, .mk t a x y cs, v =>
      let myBase := (attrOf a qn_xml_base).orElse (fun _ => inh)
      (if t.isSome && attrOf a qn_xml_id == some v then [(Elem.mk t a x y cs, myBase)] else [])
        ++ findByIdBL myBase cs v

def findByIdBL : Option String → List Elem → String → List (Elem × Option String)
  | _, [], _ => []
  | inh, c :: cs, v => findByIdB inh c v ++ findByIdBL inh cs v

end

/-- The `while elem.getparent() is not None` loop of `find_target` with
`linkscope == "near"`: `anc` is the chain of proper ancestors of the
referrer, nearest first (ending at the document root).  The Python local
`target` is only assigned inside the loop body, so an empty chain falls
through to `return None if len(target) == 0 ...` with `target` unbound. -/
def nearLoop (v : String) : List Elem → Except PyErr (Option Elem)
  | [] => .error .unboundLocal
  | a :: rest =>
      match (childrenWithId a v).head? with
      | some t => .ok (some t)
      | none =>
          match rest with
          | [] => .ok none
          | _ :: _ => nearLoop v rest

/-- `docbook.find_target(elem, subtree, value, linkscope)`.  The zipper
context of the lxml element is made explicit: `anc` is the referrer's
proper-ancestor chain nearest-first, `docroot` the document root that an
absolute `//*` xpath searches from. -/
def find_target (anc : List Elem) (docroot : Elem) (subtree : Elem)
    (value linkscope : String) : Except PyErr (Option Elem) :=
  if linkscope = "local" then .ok (childrenWithId subtree value).head?
  else if linkscope = "near" then nearLoop value anc
  else if linkscope = "global" then .ok (searchAll docroot value).head?
  else .error .unboundLocal

/-- Modelled from the spec: `generate_id` from the missing `utils`
module — "a deterministic, document-unique identifier derived from the
element's structural position".  We derive it from the element's path of
child indices from the document root. -/
def generate_id (path : List Nat) : String :=
  String.intercalate "." (path.map toString)

mutual

/-- The `for elem in subtree.iter()` loop of `associate_new_ids`:
assign each id-bearing element of the subtree its new id as a
`dbxi:newid` attribute.  `suf` is the resolved suffix (only read when
`idf = "suffix"`); `path` is the subtree root's child-index path used by
`generate_id`. -/
def markTree : String → String → List Nat → Elem → Except PyErr Elem
  | idf, suf, path, .mk t a x y cs => do
      let a' ←
        match attrOf a qn_xml_id with
        | none => Except.ok a
        | some cur =>
            let new := (attrOf a qn_newid).getD cur
            if idf = "suffix" then Except.ok (setAttrList a qn_newid (new ++ suf))
            else if idf = "auto" then
              Except.ok (setAttrList a qn_newid (new ++ "--" ++ generate_id path))
            else Except.error (.dbxi ("idfixup type " ++ pyrepr idf ++ " not implemented"))
      let cs' ← markTreeL idf suf path 0 cs
      return Elem.mk t a' x y cs'

def markTreeL : String → String → List Nat → Nat → List Elem → Except PyErr (List Elem)
  | _, _, _, _, [] => .ok []
  | idf, suf, path, i, c :: cs => do
      let c' ← markTree idf suf (path ++ [i]) c
      let cs' ← markTreeL idf suf path (i + 1) cs
      return c' :: cs'

end

/-- `docbook.associate_new_ids(subtree)`.  `inhSuffix` is the value the
`ancestor-or-self::*[@trans:suffix][1]` xpath would find above the
subtree root (the document ancestors of the subtree), `path` the
subtree root's child-index path. -/
def associate_new_ids (inhSuffix : Option String) (path : List Nat) (e : Elem) :
    Except PyErr Elem :=
  let idfixup := (getAttr e qn_idfixup).getD "none"
  if idfixup = "none" then .ok e
  else
    let suffix := (getAttr e qn_suffix).orElse (fun _ => inhSuffix)
    if idfixup = "suffix" then
      match suffix with
      | none => .error (.assertFail "No suffix given")
      | some s => markTree idfixup s path e
    else markTree idfixup "" path e

mutual

/-- The first pass of `docbook.process_tree`:
`for subtree in tree.iter(): associate_new_ids(subtree)` in document
order, each call transforming the tree in place before the iteration
descends into it.  Fuel-based recursion (the structure is preserved but
Lean cannot see that through `associate_new_ids`). -/
def db_passA : Nat → Option String → List Nat → Elem → Except PyErr Elem
  | 0, _, _, _ => .error .noFuel
  | n + 1, inh, path, e =>
      match associate_new_ids inh path e with
      | .error er => .error er
      | .ok e' =>
          let inh' := (getAttr e' qn_suffix).orElse (fun _ => inh)
          match db_passAL n inh' path 0 e'.children with
          | .error er => .error er
          | .ok cs' => .ok (e'.withChildren cs')

def db_passAL : Nat → Option String → List Nat → Nat → List Elem → Except PyErr (List Elem)
  | 0, _, _, _, _ => .error .noFuel
  | _ + 1, _, _, _, [] => .ok []
  | n + 1, inh, path, i, c :: cs =>
      match db_passA n inh (path ++ [i]) c with
      | .error er => .error er
      | .ok c' =>
          match db_passAL n inh path (i + 1) cs with
          | .error er => .error er
          | .ok cs' => .ok (c' :: cs')

end

def idrefs : List String := ["linkend", "otherterm", "startref", "targetptr", "endterm"]

def idrefs_multi : List String := ["arearefs", "linkends", "zone"]

/-- The `for attr, value in elem.items()` loop of `fixup_references`:
iterate over the snapshot of the element's attributes, resolving each
single-valued reference attribute and rewriting it in the live list. -/
def fixup_attrs (anc : List Elem) (docroot subtree : Elem) (ls : String) :
    List (QNm × String) → List (QNm × String) → Except PyErr (List (QNm × String))
  | [], live => .ok live
  | (q, v) :: rest, live =>
      if q.ns.isSome || (!(idrefs.contains q.nm) && !(idrefs_multi.contains q.nm)) then
        fixup_attrs anc docroot subtree ls rest live
      else if idrefs_multi.contains q.nm then .error (.assertFail "Not implemented")
      else
        match find_target anc docroot subtree v ls with
        | .error er => .error er
        | .ok none => .error (.dbxi ("Could not resolve reference " ++ pyrepr v))
        | .ok (some t) =>
            let new := if truthy (getAttr t qn_newid) then getAttr t qn_newid
                       else getAttr t qn_xml_id
            match new with
            | some nv => fixup_attrs anc docroot subtree ls rest (setAttrList live q nv)
            | none => .error .typeErr

/-- The body of the `for elem in subtree.iter()` loop of
`fixup_references` for one element (reference rewriting only; children
are handled by `fixup_walk`). -/
def fixup_one (anc : List Elem) (docroot : Elem) (inhLS inhIF : Option String)
    (e : Elem) : Except PyErr Elem :=
  match e.tag with
  | none => .ok e
  | some t =>
      if t.ns ≠ some ns_db then .ok e
      else
        let ls := ((getAttr e qn_linkscope).orElse (fun _ => inhLS)).getD "near"
        if !(["near", "local", "global", "user"].contains ls) then
          .error (.dbxi ("invalid linkscope type " ++ pyrepr ls))
        else
          let idf := ((getAttr e qn_idfixup).orElse (fun _ => inhIF)).getD "none"
          -- faithful to the source: the second disjunct compares the
          -- literal string "linkscope" with "user" and is always false
          if idf = "none" ∨ ("linkscope" : String) = "user" then .ok e
          else
            match fixup_attrs anc docroot docroot ls e.attrs e.attrs with
            | .error er => .error er
            | .ok a' => .ok (e.withAttrs a')

mutual

/-- `docbook.fixup_references(subtree)` as a walk over the tree.
`anc` carries the referrer's ancestors for `find_target`.  Pass B only
rewrites reference attributes, which no lookup of the pass consults
(`xml:id`, `dbxi:newid` and `trans:*` are untouched), so searching the
pre-pass ancestors and root is observationally identical to the live
mutated tree. -/
def fixup_walk (docroot : Elem) (anc : List Elem) (inhLS inhIF : Option String) :
    Elem → Except PyErr Elem
  | .mk t a x y cs =>
      match fixup_one anc docroot inhLS inhIF (.mk t a x y cs) with
      | .error er => .error er
      | .ok e' =>
          let inhLS' := (attrOf a qn_linkscope).orElse (fun _ => inhLS)
          let inhIF' := (attrOf a qn_idfixup).orElse (fun _ => inhIF)
          match fixup_walkL docroot (Elem.mk t a x y cs :: anc) inhLS' inhIF' cs with
          | .error er => .error er
          | .ok cs' => .ok (e'.withChildren cs')

def fixup_walkL (docroot : Elem) (anc : List Elem) (inhLS inhIF : Option String) :
    List Elem → Except PyErr (List Elem)
  | [] => .ok []
  | c :: cs =>
      match fixup_walk docroot anc inhLS inhIF c with
      | .error er => .error er
      | .ok c' =>
          match fixup_walkL docroot anc inhLS inhIF cs with
          | .error er => .error er
          | .ok cs' => .ok (c' :: cs')

end

def fixup_references (tree : Elem) : Except PyErr Elem :=
  fixup_walk tree [] none none tree

mutual

/-- The cleanup pass of `docbook.process_tree`: for every element, copy
a truthy `dbxi:newid` onto `xml:id` and delete the marker (a falsy one —
`None` or `""` — is left alone), then delete every attribute in the
`trans` namespace. -/
def db_cleanup : Elem → Elem
  | .mk t a x y cs =>
      let a1 :=
        match attrOf a qn_newid with
        | some nid =>
            if nid ≠ "" then
              (setAttrList a qn_xml_id nid).filter (fun (p : QNm × String) => p.1 != qn_newid)
            else a
        | none => a
      let a2 := a1.filter (fun p => !(p.1.ns == some ns_trans))
      .mk t a2 x y (db_cleanupL cs)

def db_cleanupL : List Elem → List Elem
  | [] => []
  | c :: cs => db_cleanup c :: db_cleanupL cs

end

/-- The loop body of `xinclude.copy_attributes` folded over the
directive's attribute list (the XInclude 1.1 attribute-copying rules). -/
def copyAttrsList : List (QNm × String) → Elem → Elem
  | [], sub => sub
  | (q, v) :: rest, sub =>
      let sub' :=
        if q.ns = none ∧ q.nm = "set-xml-id" then
          if v ≠ "" then setAttr sub qn_xml_id v
          else if truthy (getAttr sub qn_xml_id) then delAttr sub qn_xml_id
          else sub
        else if q.ns = some ns_local then setAttr sub ⟨none, q.nm⟩ v
        else if q.ns = some ns_xml then sub
        else if q.ns ≠ none then setAttr sub q v
        else sub
      copyAttrsList rest sub'

/-- `xinclude.copy_attributes(elem, subtree)`. -/
def copy_attributes (elem subtree : Elem) : Elem :=
  copyAttrsList elem.attrs subtree

/-- The resource loader collaborator: `fetch(href, base)` yields raw
content (bytes decoded as text) or a transport error.  The low-level
URL-opening mechanics of `get_target` are out of scope per the design. -/
abbrev Loader := String → String → Except String String

/-- `xinclude.get_target(elem, base_url)`: returns the fetched content
together with the joined URL the code reports as the resolved location. -/
def get_target (L : Loader) (elem : Elem) (base_url : String) :
    Except PyErr (String × String) :=
  match getAttr elem ⟨none, "href"⟩ with
  | none => .error (.dbxi "Missing href attribute")
  | some href =>
      let url := build_url base_url href
      match L href base_url with
      | .error _ => .error (.resource ("Could not get target " ++ pyrepr url))
      | .ok content => .ok (content, url)

/-- The attribute loop of `validate_xinclude`: the first unqualified
attribute outside the whitelist raises. -/
def check_attrs : List (QNm × String) → Except PyErr Unit
  | [] => .ok ()
  | (q, _) :: rest =>
      if q.ns = none ∧ ¬ (["href", "fragid", "parse", "set-xml-id"].contains q.nm) then
        .error (.dbxi ("Invalid attribute " ++ pyrepr q.nm))
      else check_attrs rest

/-- `xinclude.validate_xinclude(elem, file)`.  The only fatal error a
non-element (comment) child can raise here comes from `QName(elem[0])`,
modelled as `typeErr`. -/
def validate_xinclude (elem : Elem) : Except PyErr Unit :=
  match check_attrs elem.attrs with
  | .error e => .error e
  | .ok _ =>
      let parse := (getAttr elem ⟨none, "parse"⟩).getD "xml"
      if parse ≠ "xml" ∧ parse ≠ "text" then
        .error (.dbxi ("Invalid value for parse: " ++ pyrepr parse))
      else if parse ≠ "xml" ∧ (getAttr elem ⟨none, "fragid"⟩).isSome then
        .error (.dbxi ("fragid invalid, parse != " ++ pyrepr "xml"))
      else
        match elem.children with
        | [] => .ok ()
        | [c] =>
            match c.tag with
            | none => .error .typeErr
            | some q =>
                if q = qn_xi_fallback then .ok ()
                else .error (.dbxi "Only one xi:fallback can be a child of xi:include")
        | _ => .error (.dbxi "Only one xi:fallback can be a child of xi:include")

mutual

/-- `xinclude.handle_xinclude(elem, base_url, file, xinclude_stack)`.
In-place mutation is threaded: the directive is `parent.children[i]`,
the updated parent and the accumulated stderr diagnostics are returned.
`ancBase` is the nearest `xml:base` among the parent's
ancestors-or-self; `PF` is the XML parser collaborator (`fromstring`). -/
def handle_xinclude (L : Loader) (PF : String → Elem) :
    Nat → Option String → Elem → Nat → Option String → List String →
    Except PyErr (Elem × List String)
  | 0, _, _, _, _, _ => .error .noFuel
  | n + 1, ancBase, parent, i, base_url, stack =>
      match parent.children[i]? with
      | none => .error .indexErr
      | some elem =>
          if elem.tag ≠ some qn_xi_include then .error (.assertFail "Not an XInclude")
          else if (getAttr elem ⟨none, "xpointer"⟩).isSome then
            .error (.assertFail "xpointer not implemented. Use fragid instead")
          else match validate_xinclude elem with
          | .error e => .error e
          | .ok _ =>
              -- base_url = base_urls[0] if len(base_urls) == 1 else base_url
              match ((getAttr elem qn_xml_base).orElse (fun _ => ancBase)).orElse
                      (fun _ => base_url) with
              | none => .error (.dbxi "Could not get base URL")
              | some bu =>
                  match get_target L elem bu with
                  | .error (.resource m) =>
                      (match handle_xifallback L PF n ancBase parent i stack with
                       | .error e => .error e
                       | .ok none => .error (.resource m)
                       | .ok (some (parent', d)) => .ok (parent', d ++ [m]))
                  | .error e => .error e
                  | .ok (content, url) =>
                      let saved_tail := elem.tail
                      let elem := elem.withTail (some "")
                      let parent := parent.withChildren (parent.children.set i elem)
                      if (getAttr elem ⟨none, "parse"⟩).getD "xml" ≠ "xml" then
                        -- text inclusion; note the directive is not removed
                        match saved_tail with
                        | none => .error .typeErr
                        | some st =>
                            let s := content ++ st
                            if i = 0 then
                              match parent.text with
                              | none => .error .typeErr
                              | some pt => .ok (parent.withText (some (pt ++ s)), [])
                            else
                              match parent.children[i - 1]? with
                              | none => .error .indexErr
                              | some prev =>
                                  match prev.tail with
                                  | none => .error .typeErr
                                  | some vt =>
                                      .ok (parent.withChildren (parent.children.set (i - 1)
                                            (prev.withTail (some (vt ++ s)))), [])
                      else
                        let fragid := getAttr elem ⟨none, "fragid"⟩
                        let key := mkKey url fragid
                        if key ∈ stack then .error (.dbxi "Infinite recursion detected")
                        else
                          let subtree0 := PF content
                          match (match fragid with
                                 | none => Except.ok (subtree0, url)
                                 | some f =>
                                     match findByIdB none subtree0 f with
                                     | [(st, b)] => Except.ok (st, b.getD url)
                                     | _ => Except.error (PyErr.dbxi ("Could not find fragid "
                                              ++ pyrepr f ++ " in target " ++ pyrepr url))) with
                          | .error e => .error e
                          | .ok (st, url') =>
                              let st := copy_attributes elem st
                              let st := st.withTail saved_tail
                              match process_tree L PF n none st (some url') (stack ++ [key]) with
                              | .error e => .error e
                              | .ok (st', d) =>
                                  .ok (parent.withChildren (parent.children.set i st'), d)

/-- `xinclude.handle_xifallback(elem, file, xinclude_stack)`: `.ok none`
models the `return False` (no fallback present); otherwise the directive
at `parent.children[i]` is replaced by its processed fallback element. -/
def handle_xifallback (L : Loader) (PF : String → Elem) :
    Nat → Option String → Elem → Nat → List String →
    Except PyErr (Option (Elem × List String))
  | 0, _, _, _, _ => .error .noFuel
  | n + 1, ancBase, parent, i, stack =>
      match parent.children[i]? with
      | none => .error .indexErr
      | some elem =>
          match elem.children with
          | [] => .ok none
          | fb :: _ =>
              if elem.tag = none then .ok none
              else match fb.tag with
              | none => .error .typeErr
              | some q =>
                  if q ≠ qn_xi_fallback then .ok none
                  else match append_to_tail fb elem.tail with
                  | .error e => .error e
                  | .ok fb' =>
                      -- process_tree before replacement: the fallback is
                      -- still below the directive, so it inherits the
                      -- directive's effective xml:base
                      let fbBase := (getAttr elem qn_xml_base).orElse (fun _ => ancBase)
                      match process_tree L PF n fbBase fb' none stack with
                      | .error e => .error e
                      | .ok (fb'', d) =>
                          .ok (some (parent.withChildren (parent.children.set i fb''), d))

/-- The `for elem in tree` loop of `xinclude.process_subtree`, from
child index `i` on.  Replacement of the visited child is one-for-one, so
continuing at `i + 1` matches lxml's prefetching child iterator. -/
def process_children (L : Loader) (PF : String → Elem) :
    Nat → Option String → Elem → Nat → Option String → List String →
    Except PyErr (Elem × List String)
  | 0, _, _, _, _, _ => .error .noFuel
  | n + 1, ancBase, tree, i, base_url, stack =>
      match tree.children[i]? with
      | none => .ok (tree, [])
      | some elem =>
          match elem.tag with
          | none => process_children L PF n ancBase tree (i + 1) base_url stack
          | some q =>
              if q = qn_xi_include then
                match handle_xinclude L PF n ancBase tree i base_url stack with
                | .error e => .error e
                | .ok (tree', d1) =>
                    match process_children L PF n ancBase tree' (i + 1) base_url stack with
                    | .error e => .error e
                    | .ok (tree'', d2) => .ok (tree'', d1 ++ d2)
              else
                let ancBase' := (getAttr elem qn_xml_base).orElse (fun _ => ancBase)
                match process_children L PF n ancBase' elem 0 base_url stack with
                | .error e => .error e
                | .ok (elem', d1) =>
                    match process_children L PF n ancBase
                            (tree.withChildren (tree.children.set i elem'))
                            (i + 1) base_url stack with
                    | .error e => .error e
                    | .ok (tree'', d2) => .ok (tree'', d1 ++ d2)

/-- The `while i < len(tree)` loop of `xinclude.flatten_subtree`:
inline every surviving `xi:fallback` at or after child index `i`
(re-examining the splice position), recursing into other elements. -/
def flatten_children (PF : String → Elem) :
    Nat → Elem → Nat → Except PyErr Elem
  | 0, _, _ => .error .noFuel
  | n + 1, tree, i =>
      match tree.children[i]? with
      | none => .ok tree
      | some elem =>
          match elem.tag with
          | none => flatten_children PF n tree (i + 1)
          | some q =>
              if q = qn_xi_fallback then
                let elemStep : Except PyErr Elem :=
                  match elem.children.getLast? with
                  | some lastc =>
                      (append_to_tail lastc elem.tail).map
                        (fun lc => elem.withChildren (elem.children.dropLast ++ [lc]))
                  | none => append_to_text elem elem.tail
                match elemStep with
                | .error e => .error e
                | .ok elem' =>
                    let treeStep : Except PyErr Elem :=
                      if i = 0 then append_to_text tree elem'.text
                      else
                        match tree.children[i - 1]? with
                        | none => .error .indexErr
                        | some prev =>
                            (append_to_tail prev elem'.text).map
                              (fun p => tree.withChildren (tree.children.set (i - 1) p))
                    match treeStep with
                    | .error e => .error e
                    | .ok tree1 =>
                        let tree2 := tree1.withChildren
                          ((tree1.children.take i) ++ elem'.children
                            ++ (tree1.children.drop (i + 1)))
                        flatten_children PF n tree2 i
              else
                match flatten_children PF n elem 0 with
                | .error e => .error e
                | .ok elem' =>
                    flatten_children PF n
                      (tree.withChildren (tree.children.set i elem')) (i + 1)

/-- `xinclude.process_tree(tree, base_url, file, xinclude_stack)`.
`ancBaseParent` is the nearest `xml:base` among the tree's ancestors
(`none` for a standalone tree); an initial `xinclude_stack=None` is the
empty guard. -/
def process_tree (L : Loader) (PF : String → Elem) :
    Nat → Option String → Elem → Option String → List String →
    Except PyErr (Elem × List String)
  | 0, _, _, _, _ => .error .noFuel
  | n + 1, ancBaseParent, tree, base_url, stack =>
      let tree :=
        match base_url with
        | some bu =>
            if bu = "" then tree
            else if truthy (getAttr tree qn_xml_base) then tree
            else setAttr tree qn_xml_base bu
        | none => tree
      let ancBase := (getAttr tree qn_xml_base).orElse (fun _ => ancBaseParent)
      match process_children L PF n ancBase tree 0 base_url stack with
      | .error e => .error e
      | .ok (tree', d) =>
          match flatten_children PF n tree' 0 with
          | .error e => .error e
          | .ok tree'' => .ok (tree'', d)

end

/-- `docbook.process_tree(tree, base_url, file)`: XInclude resolution,
then the three docbook passes (id assignment, reference fixup, cleanup).
The final `lxml.etree.cleanup_namespaces` only drops unused namespace
declarations (serialization formatting, out of scope). -/
def db_process_tree (L : Loader) (PF : String → Elem) (fuel : Nat)
    (tree : Elem) (base_url : Option String) : Except PyErr (Elem × List String) :=
  match process_tree L PF fuel none tree base_url [] with
  | .error e => .error e
  | .ok (t, d) =>
      match db_passA fuel none [] t with
      | .error e => .error e
      | .ok t2 =>
          match fixup_references t2 with
          | .error e => .error e
          | .ok t3 => .ok (db_cleanup t3, d)

/-- The empty non-element node (used as a throwaway parser result). -/
def emptyElem : Elem := .mk none [] none none []

/-- Tree of a successful run (`None` on error). -/
def okTree : Except PyErr (Elem × List String) → Option Elem
  | .ok (t, _) => some t
  | .error _ => none

/-- Diagnostics of a successful run (`None` on error). -/
def okDiags : Except PyErr (Elem × List String) → Option (List String)
  | .ok (_, d) => some d
  | .error _ => none

mutual

/-- Amended Pass A per-scope semantics, following the corrected claim:
one `associate_new_ids` call on a scope whose `idfixup` is `suffix`
appends the resolved suffix to the planned id (existing `dbxi:newid`
marker if present, else the `xml:id`) of every id-bearing element of the
scope, storing it in the marker and leaving `xml:id` untouched. -/
def suffixMarkAll : String → Elem → Elem
  | suf, .mk t a x y cs =>
      let a' :=
        match attrOf a qn_xml_id with
        | none => a
        | some cur => setAttrList a qn_newid (((attrOf a qn_newid).getD cur) ++ suf)
      .mk t a' x y (suffixMarkAllL suf cs)

def suffixMarkAllL : String → List Elem → List Elem
  | _, [] => []
  | suf, c :: cs => suffixMarkAll suf c :: suffixMarkAllL suf cs

end

mutual

/-- Decides, over a whole tree, the cleanup invariant of the corrected
claim: no `trans`-namespace attribute anywhere, and any surviving
`dbxi:newid` marker carries the empty string. -/
def cleanOKE : Elem → Bool
  | .mk _ a _ _ cs =>
      a.all (fun p => !(p.1.ns == some ns_trans))
        && (match attrOf a qn_newid with
            | some v => v == ""
            | none => true)
        && cleanOKL cs

def cleanOKL : List Elem → Bool
  | [] => true
  | c :: cs => cleanOKE c && cleanOKL cs

end

/-! Concrete inputs used by the claim theorems. -/

/-- C1: a DocBook tree whose root sets `idfixup="suffix"`,
`suffix="-s"`, `linkscope="user"`; `xml:id="t"` and a `linkend="t"`
referrer below it. -/
def ex1_para : Elem := .mk (some ⟨some ns_db, "para"⟩) [(qn_xml_id, "t")] none none []

def ex1_xref : Elem := .mk (some ⟨some ns_db, "xref"⟩) [(⟨none, "linkend"⟩, "t")] none none []

def ex1_root : Elem :=
  .mk (some ⟨some ns_db, "book"⟩)
    [(qn_idfixup, "suffix"), (qn_suffix, "-s"), (qn_linkscope, "user")]
    none none [ex1_para, ex1_xref]

/-- A loader that fails every fetch (no XInclude fetch should happen). -/
def failLoader : Loader := fun _ _ => .error "unavailable"

/-- C2: `<root>before <xi:include href="snippet.txt" parse="text"/> after</root>`. -/
def ex2_inc : Elem :=
  .mk (some qn_xi_include) [(⟨none, "href"⟩, "snippet.txt"), (⟨none, "parse"⟩, "text")]
    none (some " after") []

def ex2_root : Elem := .mk (some ⟨none, "root"⟩) [] (some "before ") none [ex2_inc]

def ex2_loader : Loader :=
  fun href _ => if href = "snippet.txt" then .ok "CONTENT" else .error "missing"

/-- C3: `xi:include href="missing.xml"` (tail `"T"`) with an
`xi:fallback` child holding text `"N/A"`. -/
def ex3_fb : Elem := .mk (some qn_xi_fallback) [] (some "N/A") none []

def ex3_inc : Elem :=
  .mk (some qn_xi_include) [(⟨none, "href"⟩, "missing.xml")] none (some "T") [ex3_fb]

def ex3_root : Elem := .mk (some ⟨none, "r"⟩) [] none none [ex3_inc]

/-- C4: loader/parser serving `a.xml` (a plain element) and `b.xml`
(an element that re-includes `b.xml`). -/
def ex4_loader : Loader :=
  fun href _ =>
    if href = "a.xml" then .ok "A"
    else if href = "b.xml" then .ok "B"
    else .error "missing"

def ex4_binner : Elem := .mk (some qn_xi_include) [(⟨none, "href"⟩, "b.xml")] none none []

def ex4_parse : String → Elem :=
  fun s =>
    if s = "A" then .mk (some ⟨none, "x"⟩) [] none none []
    else if s = "B" then .mk (some ⟨none, "y"⟩) [] none none [ex4_binner]
    else emptyElem

def ex4_ainc : Elem := .mk (some qn_xi_include) [(⟨none, "href"⟩, "a.xml")] none none []

/-- Two sibling directives both including `a.xml`: succeeds, showing the
guard is per-branch. -/
def ex4_diamond : Elem := .mk (some ⟨none, "r"⟩) [] none none [ex4_ainc, ex4_ainc]

/-- A directive including `b.xml`, whose target re-includes `b.xml`. -/
def ex4_cycle : Elem := .mk (some ⟨none, "r"⟩) [] none none [ex4_binner]

/-- C5: document `R > A > (B > C, T)` with `T` carrying `xml:id="t"`
as a direct child of `A`. -/
def ex5_T : Elem := .mk (some ⟨some ns_db, "target"⟩) [(qn_xml_id, "t")] none none []

def ex5_C : Elem := .mk (some ⟨some ns_db, "xref"⟩) [(⟨none, "linkend"⟩, "t")] none none []

def ex5_B : Elem := .mk (some ⟨some ns_db, "B"⟩) [] none none [ex5_C]

def ex5_A : Elem := .mk (some ⟨some ns_db, "A"⟩) [] none none [ex5_B, ex5_T]

def ex5_R : Elem := .mk (some ⟨some ns_db, "R"⟩) [] none none [ex5_A]

/-- C6: directive with `set-xml-id=""` and a local-namespace attribute;
inclusion root with an empty `xml:id`. -/
def ex6_elem : Elem :=
  .mk (some qn_xi_include)
    [(⟨none, "set-xml-id"⟩, ""), (⟨some ns_local, "foo"⟩, "v")] none none []

def ex6_sub : Elem := .mk (some ⟨none, "s"⟩) [(qn_xml_id, "")] none none []

/-- C7: a well-formed directive. -/
def ex7_elem : Elem := .mk (some qn_xi_include) [(⟨none, "href"⟩, "x.xml")] none none []

/-- C8 counterexample: nested suffix scopes `A(-a) > B(-b) > E(xml:id=x)`. -/
def ex8_E : Elem := .mk (some ⟨some ns_db, "E"⟩) [(qn_xml_id, "x")] none none []

def ex8_B : Elem :=
  .mk (some ⟨some ns_db, "B"⟩) [(qn_idfixup, "suffix"), (qn_suffix, "-b")] none none [ex8_E]

def ex8_A : Elem :=
  .mk (some ⟨some ns_db, "A"⟩) [(qn_idfixup, "suffix"), (qn_suffix, "-a")] none none [ex8_B]

/-- C8 amended, end-to-end example: `idfixup="suffix"`, `suffix="-a"`,
an element `xml:id="sec1"` and an in-scope `linkend="sec1"`. -/
def ex8_sec : Elem := .mk (some ⟨some ns_db, "section"⟩) [(qn_xml_id, "sec1")] none none []

def ex8_xref : Elem := .mk (some ⟨some ns_db, "xref"⟩) [(⟨none, "linkend"⟩, "sec1")] none none []

def ex8_doc : Elem :=
  .mk (some ⟨some ns_db, "book"⟩) [(qn_idfixup, "suffix"), (qn_suffix, "-a")]
    none none [ex8_sec, ex8_xref]

/-- C9 counterexample: `xml:id=""` under `idfixup="suffix"`,
`suffix=""` organically produces an empty `dbxi:newid` marker. -/
def ex9_doc : Elem :=
  .mk (some ⟨some ns_db, "book"⟩)
    [(qn_idfixup, "suffix"), (qn_suffix, ""), (qn_xml_id, "")] none none []

/-! Helper lemmas. -/

theorem getAttr_withTail (e : Elem) (s : Option String) (q : QNm) :
    getAttr (e.withTail s) q = getAttr e q := by
  cases e; rfl

theorem attrOf_filter (l : List (QNm × String)) (q : QNm × String → Bool) (k : QNm)
    (h : ∀ p : QNm × String, p.1 = k → q p = true) :
    attrOf (l.filter q) k = attrOf l k := by
  induction l with
  | nil => rfl
  | cons p rest ih =>
      by_cases hk : p.1 = k
      · have hq : q p = true := h p hk
        simp [attrOf, List.filter, hq, List.find?, hk]
      · have hne : (p.1 == k) = false := by simp [hk]
        by_cases hqp : q p = true
        · simpa [attrOf, List.filter, hqp, List.find?, hne] using ih
        · simp only [Bool.not_eq_true] at hqp
          simpa [attrOf, List.filter, hqp, List.find?, hne] using ih

theorem attrOf_filter_none (l : List (QNm × String)) (q : QNm × String → Bool) (k : QNm)
    (h : attrOf l k = none) : attrOf (l.filter q) k = none := by
  simp only [attrOf, Option.map_eq_none', List.find?_eq_none] at h ⊢
  intro p hp
  exact h p (List.mem_of_mem_filter hp)

theorem attrOf_filter_out (l : List (QNm × String)) (k : QNm) :
    attrOf (l.filter (fun p => p.1 != k)) k = none := by
  simp only [attrOf, Option.map_eq_none', List.find?_eq_none]
  intro p hp
  have := (List.mem_filter.mp hp).2
  simpa using this

theorem attrOf_setAttrList_self (l : List (QNm × String)) (k : QNm) (v : String) :
    attrOf (setAttrList l k v) k = some v := by
  induction l with
  | nil => simp [setAttrList, attrOf, List.find?]
  | cons p rest ih =>
      by_cases hk : p.1 = k
      · simp [setAttrList, hk, attrOf, List.find?]
      · have hne : (p.1 == k) = false := by simp [hk]
        simpa [setAttrList, hk, attrOf, List.find?, hne] using ih

/-! Claim theorems. -/

/-- C1 — code_bug.  Failing input: a DocBook element whose effective
`idfixup` is `suffix` and effective `linkscope` is `user`, carrying
`linkend="t"`.  The claim (and the spec) say Pass B skips such elements
and never invokes the Reference Resolver with scope `user`; the code's
skip test compares the literal string `"linkscope"` with `"user"`
(always false), so `find_target` is invoked with scope `user` and the
whole run dies with the unbound-local error instead of skipping. -/
theorem claim_c1_user_not_skipped :
    db_process_tree failLoader (fun _ => emptyElem) 10 ex1_root none =
      .error .unboundLocal := by
  rfl

/-- C2 — code_bug.  Failing input: `<root>before <xi:include
href="snippet.txt" parse="text"/> after</root>` with the fetch yielding
`"CONTENT"`.  The decoded text plus trailing text is concatenated into
the parent's leading text as the claim states, but the directive element
is never removed: the output still contains the `xi:include` element
(with an emptied tail), while the claim says no element remains at that
position. -/
theorem claim_c2_text_directive_remains :
    process_tree ex2_loader (fun _ => emptyElem) 10 none ex2_root (some "dir/main.xml") [] =
      .ok (.mk (some ⟨none, "root"⟩) [(qn_xml_base, "dir/main.xml")]
             (some "before CONTENT after") none
             [.mk (some qn_xi_include)
                [(⟨none, "href"⟩, "snippet.txt"), (⟨none, "parse"⟩, "text")]
                none (some "") []], []) := by
  rfl

/-- C10 — confirmed.  `find_target` is not total over its stated
interface: any `linkscope` outside local/near/global (e.g. `user`)
reaches the final `return` with the local `target` never assigned, and
so does `linkscope="near"` when the referrer is the document root (the
ancestor walk never executes). -/
theorem claim_c10_find_target_not_total :
    (∀ ls : String, ls ≠ "local" → ls ≠ "near" → ls ≠ "global" →
      ∀ (anc : List Elem) (root sub : Elem) (v : String),
        find_target anc root sub v ls = .error .unboundLocal)
    ∧ (∀ (root sub : Elem) (v : String),
        find_target [] root sub v "near" = .error .unboundLocal) := by
  constructor
  · intro ls h1 h2 h3 anc root sub v
    simp [find_target, h1, h2, h3]
  · intro root sub v
    rfl

/-- Witness for C10: scope `"user"` at a concrete call, and a root
referrer under `"near"`, both fail with the unbound-local error. -/
theorem claim_c10_witness :
    find_target [] emptyElem emptyElem "x" "user" = .error .unboundLocal
    ∧ find_target [] emptyElem emptyElem "x" "near" = .error .unboundLocal :=
  ⟨claim_c10_find_target_not_total.1 "user" (by decide) (by decide) (by decide)
      [] emptyElem emptyElem "x",
   claim_c10_find_target_not_total.2 emptyElem emptyElem "x"⟩

theorem nearLoop_last (v : String) (a : Elem) (h : childrenWithId a v = []) :
    nearLoop v [a] = .ok none := by
  have h0 : nearLoop v [a]
      = match (childrenWithId a v).head? with
        | some t => Except.ok (some t)
        | none => Except.ok none := rfl
  rw [h0, h]
  rfl

theorem nearLoop_step (v : String) (a b : Elem) (bs : List Elem)
    (h : childrenWithId a v = []) :
    nearLoop v (a :: b :: bs) = nearLoop v (b :: bs) := by
  have h0 : nearLoop v (a :: b :: bs)
      = match (childrenWithId a v).head? with
        | some t => Except.ok (some t)
        | none => nearLoop v (b :: bs) := rfl
  rw [h0, h]
  rfl

theorem nearLoop_found (v : String) (a : Elem) (rest : List Elem) (t : Elem)
    (ts : List Elem) (h : childrenWithId a v = t :: ts) :
    nearLoop v (a :: rest) = .ok (some t) := by
  cases rest with
  | nil =>
      have h0 : nearLoop v [a]
          = match (childrenWithId a v).head? with
            | some u => Except.ok (some u)
            | none => Except.ok none := rfl
      rw [h0, h]
      rfl
  | cons b bs =>
      have h0 : nearLoop v (a :: b :: bs)
          = match (childrenWithId a v).head? with
            | some u => Except.ok (some u)
            | none => nearLoop v (b :: bs) := rfl
      rw [h0, h]
      rfl

theorem nearLoop_none (v : String) :
    ∀ l : List Elem, l ≠ [] → (∀ e ∈ l, childrenWithId e v = []) →
      nearLoop v l = .ok none := by
  intro l
  induction l with
  | nil => intro h; exact absurd rfl h
  | cons a rest ih =>
      intro _ hall
      have ha : childrenWithId a v = [] := hall a (List.mem_cons_self a rest)
      cases rest with
      | nil => exact nearLoop_last v a ha
      | cons b bs =>
          rw [nearLoop_step v a b bs ha]
          exact ih (by simp) (fun e he => hall e (List.mem_cons_of_mem a he))

theorem nearLoop_first (v : String) (a : Elem) (anc : List Elem) (t : Elem)
    (ts : List Elem) :
    ∀ pre : List Elem, (∀ e ∈ pre, childrenWithId e v = []) →
      childrenWithId a v = t :: ts →
      nearLoop v (pre ++ a :: anc) = .ok (some t) := by
  intro pre
  induction pre with
  | nil =>
      intro _ ha
      exact nearLoop_found v a anc t ts ha
  | cons p pre' ih =>
      intro hall ha
      have hp : childrenWithId p v = [] := hall p (List.mem_cons_self p pre')
      have hrec := ih (fun e he => hall e (List.mem_cons_of_mem p he)) ha
      cases pre' with
      | nil =>
          rw [List.nil_append] at hrec
          simpa [nearLoop_step v p a anc hp] using hrec
      | cons p2 pre2 =>
          simpa [nearLoop_step v p p2 (pre2 ++ a :: anc) hp] using hrec

/-- C5 — confirmed.  Under scope `near`, `find_target` walks the
ancestor chain one step at a time, searching only each ancestor's direct
children: the first match wins, and reaching the document root without a
match yields `None`; on the concrete nesting `R > A > (B > C, T)` with
`T = xml:id="t"` a direct child of `A`, the target is found from `C`
under `near` but not under `local` unless `A` itself is the searched
inclusion-unit root. -/
theorem claim_c5_near_scope :
    (∀ (v : String) (a : Elem) (anc : List Elem) (root sub : Elem),
        (∀ e ∈ a :: anc, childrenWithId e v = []) →
        find_target (a :: anc) root sub v "near" = .ok none)
    ∧ (∀ (v : String) (pre : List Elem) (a : Elem) (anc : List Elem)
         (root sub t : Elem) (ts : List Elem),
        (∀ e ∈ pre, childrenWithId e v = []) →
        childrenWithId a v = t :: ts →
        find_target (pre ++ a :: anc) root sub v "near" = .ok (some t))
    ∧ find_target [ex5_B, ex5_A, ex5_R] ex5_R ex5_R "t" "near" = .ok (some ex5_T)
    ∧ find_target [] ex5_R ex5_R "t" "local" = .ok none
    ∧ find_target [] ex5_R ex5_A "t" "local" = .ok (some ex5_T) := by
  refine ⟨?_, ?_, by rfl, by rfl, by rfl⟩
  · intro v a anc root sub hall
    have := nearLoop_none v (a :: anc) (by simp) hall
    simpa [find_target] using this
  · intro v pre a anc root sub t ts hall ha
    have := nearLoop_first v a anc t ts pre hall ha
    simpa [find_target] using this

/-- Witness for C5: applying the no-match clause and the first-match
clause at the concrete document. -/
theorem claim_c5_witness :
    find_target [ex5_R] ex5_R ex5_R "zz" "near" = .ok none
    ∧ find_target [ex5_B, ex5_A] ex5_R ex5_R "t" "near" = .ok (some ex5_T) :=
  ⟨claim_c5_near_scope.1 "zz" ex5_R [] ex5_R ex5_R
      (by intro e he; simp only [List.mem_singleton] at he; subst he; rfl),
   claim_c5_near_scope.2.1 "t" [ex5_B] ex5_A [] ex5_R ex5_R ex5_T []
      (by intro e he; simp only [List.mem_singleton] at he; subst he; rfl)
      (by rfl)⟩

/-- C6 — counterexample to the claim as stated.  Directive:
`set-xml-id=""` plus a local-extension-namespace attribute `foo="v"`;
inclusion root: `xml:id=""`.  The claim predicts the root's `xml:id` is
removed (empty `set-xml-id`) and `foo` is copied verbatim (keeping its
namespace); the code leaves the empty `xml:id` in place (the removal is
guarded by Python truthiness of the current id) and copies `foo` with
its namespace stripped. -/
theorem claim_c6_counterexample :
    getAttr (copy_attributes ex6_elem ex6_sub) qn_xml_id = some ""
    ∧ getAttr (copy_attributes ex6_elem ex6_sub) ⟨some ns_local, "foo"⟩ = none
    ∧ getAttr (copy_attributes ex6_elem ex6_sub) ⟨none, "foo"⟩ = some "v" :=
  ⟨rfl, rfl, rfl⟩

/-- C6 — the claim amended no further than the counterexample forces:
a non-empty `set-xml-id` overrides the root's `xml:id`; an empty one
removes the root's `xml:id` only when the current id is truthy (an empty
id stays in place); local-extension-namespace attributes are copied with
their namespace stripped (value verbatim under the bare local name);
`xml:`-namespaced attributes are never copied; any other namespaced
attribute is copied verbatim. -/
theorem claim_c6_attribute_copying :
    (∀ (e sub : Elem) (v : String), e.attrs = [(⟨none, "set-xml-id"⟩, v)] → v ≠ "" →
        copy_attributes e sub = setAttr sub qn_xml_id v)
    ∧ (∀ e sub : Elem, e.attrs = [(⟨none, "set-xml-id"⟩, "")] →
        truthy (getAttr sub qn_xml_id) = true →
        copy_attributes e sub = delAttr sub qn_xml_id)
    ∧ (∀ e sub : Elem, e.attrs = [(⟨none, "set-xml-id"⟩, "")] →
        truthy (getAttr sub qn_xml_id) = false →
        copy_attributes e sub = sub)
    ∧ (∀ (e sub : Elem) (nm v : String), e.attrs = [(⟨some ns_local, nm⟩, v)] →
        copy_attributes e sub = setAttr sub ⟨none, nm⟩ v)
    ∧ (∀ (e sub : Elem) (nm v : String), e.attrs = [(⟨some ns_xml, nm⟩, v)] →
        copy_attributes e sub = sub)
    ∧ (∀ (e sub : Elem) (ns0 nm v : String), ns0 ≠ ns_local → ns0 ≠ ns_xml →
        e.attrs = [(⟨some ns0, nm⟩, v)] →
        copy_attributes e sub = setAttr sub ⟨some ns0, nm⟩ v) := by
  refine ⟨?_, ?_, ?_, ?_, ?_, ?_⟩
  · intro e sub v ha hv
    simp [copy_attributes, ha, copyAttrsList, hv]
  · intro e sub ha htr
    simp [copy_attributes, ha, copyAttrsList, htr]
  · intro e sub ha htr
    simp [copy_attributes, ha, copyAttrsList, htr]
  · intro e sub nm v ha
    simp [copy_attributes, ha, copyAttrsList]
  · intro e sub nm v ha
    have hne : ns_xml ≠ ns_local := by decide
    simp [copy_attributes, ha, copyAttrsList, hne]
  · intro e sub ns0 nm v h1 h2 ha
    simp [copy_attributes, ha, copyAttrsList, h1, h2]

/-- Witness for C6's amended statement: a concrete non-empty
`set-xml-id` override. -/
theorem claim_c6_witness :
    copy_attributes (Elem.mk (some qn_xi_include) [(⟨none, "set-xml-id"⟩, "n")] none none [])
        ex6_sub = setAttr ex6_sub qn_xml_id "n" :=
  claim_c6_attribute_copying.1
    (Elem.mk (some qn_xi_include) [(⟨none, "set-xml-id"⟩, "n")] none none [])
    ex6_sub "n" rfl (by decide)

theorem check_attrs_iff (a : List (QNm × String)) :
    check_attrs a = .ok () ↔
      ∀ p ∈ a, p.1.ns = none →
        (["href", "fragid", "parse", "set-xml-id"].contains p.1.nm) = true := by
  induction a with
  | nil => simp [check_attrs]
  | cons p rest ih =>
      by_cases hbad : p.1.ns = none
          ∧ ¬ ((["href", "fragid", "parse", "set-xml-id"].contains p.1.nm) = true)
      · rw [check_attrs, if_pos hbad]
        constructor
        · intro h; exact absurd h (by simp)
        · intro hall; exact absurd (hall p (List.mem_cons_self p rest) hbad.1) hbad.2
      · rw [check_attrs, if_neg hbad, ih]
        push_neg at hbad
        constructor
        · intro hrest q hq hns
          rcases List.mem_cons.mp hq with rfl | hq'
          · exact hbad hns
          · exact hrest q hq' hns
        · intro hall q hq hns
          exact hall q (List.mem_cons_of_mem p hq) hns

/-- C7 — confirmed.  Validation of an `xi:include` directive fails
exactly when it carries an unqualified attribute outside
`{href, fragid, parse, set-xml-id}`, or `parse` is neither `xml` nor
`text`, or `fragid` is present together with `parse="text"`, or it has
more than one child or a child that is not an `xi:fallback` element; a
directive meeting all the conditions passes.  (A non-element child makes
validation fail through the `QName` call, still fatally.) -/
theorem claim_c7_validate_iff (e : Elem) :
    validate_xinclude e = .ok () ↔
      ((∀ p ∈ e.attrs, p.1.ns = none →
          (["href", "fragid", "parse", "set-xml-id"].contains p.1.nm) = true)
       ∧ ((getAttr e ⟨none, "parse"⟩).getD "xml" = "xml"
            ∨ (getAttr e ⟨none, "parse"⟩).getD "xml" = "text")
       ∧ ¬ ((getAttr e ⟨none, "parse"⟩).getD "xml" = "text"
            ∧ (getAttr e ⟨none, "fragid"⟩).isSome = true)
       ∧ (e.children = [] ∨ ∃ c, e.children = [c] ∧ c.tag = some qn_xi_fallback)) := by
  unfold validate_xinclude
  cases hca : check_attrs e.attrs with
  | error err =>
      simp only [reduceCtorEq, false_iff, not_and]
      intro h1
      have : check_attrs e.attrs = .ok () := (check_attrs_iff e.attrs).mpr h1
      rw [hca] at this
      exact absurd this (by simp)
  | ok u =>
      cases u
      have h1 := (check_attrs_iff e.attrs).mp hca
      by_cases hpv : (getAttr e ⟨none, "parse"⟩).getD "xml" ≠ "xml"
          ∧ (getAttr e ⟨none, "parse"⟩).getD "xml" ≠ "text"
      · rw [if_pos hpv]
        constructor
        · intro h; exact absurd h (by simp)
        · rintro ⟨-, h2, -⟩
          rcases h2 with h2 | h2
          · exact absurd h2 hpv.1
          · exact absurd h2 hpv.2
      · rw [if_neg hpv]
        push_neg at hpv
        have hor : (getAttr e ⟨none, "parse"⟩).getD "xml" = "xml"
            ∨ (getAttr e ⟨none, "parse"⟩).getD "xml" = "text" := by
          by_cases hx : (getAttr e ⟨none, "parse"⟩).getD "xml" = "xml"
          · exact Or.inl hx
          · exact Or.inr (hpv hx)
        by_cases hfr : (getAttr e ⟨none, "parse"⟩).getD "xml" ≠ "xml"
            ∧ ((getAttr e ⟨none, "fragid"⟩).isSome : Bool) = true
        · rw [if_pos hfr]
          have htext : (getAttr e ⟨none, "parse"⟩).getD "xml" = "text" := hpv hfr.1
          constructor
          · intro h; exact absurd h (by simp)
          · rintro ⟨-, -, h3, -⟩
            exact absurd ⟨htext, hfr.2⟩ h3
        · rw [if_neg hfr]
          have h3 : ¬ ((getAttr e ⟨none, "parse"⟩).getD "xml" = "text"
              ∧ (getAttr e ⟨none, "fragid"⟩).isSome = true) := by
            rintro ⟨ht, hf⟩
            exact hfr ⟨by rw [ht]; decide, hf⟩
          cases he : e.children with
          | nil =>
              dsimp only
              constructor
              · intro _
                exact ⟨h1, hor, h3, Or.inl rfl⟩
              · intro _
                rfl
          | cons c rest =>
              cases rest with
              | nil =>
                  dsimp only
                  cases hct : c.tag with
                  | none =>
                      simp only [hct, reduceCtorEq, false_iff]
                      rintro ⟨-, -, -, h4 | ⟨c2, hc2, htag⟩⟩
                      · exact absurd h4 (by simp)
                      · have hcc : c2 = c := by
                          simp only [List.cons.injEq, and_true] at hc2
                          exact hc2.symm
                        rw [hcc, hct] at htag
                        exact absurd htag (by simp)
                  | some q =>
                      simp only [hct]
                      by_cases hq : q = qn_xi_fallback
                      · rw [if_pos hq]
                        constructor
                        · intro _
                          exact ⟨h1, hor, h3, Or.inr ⟨c, rfl, by rw [hct, hq]⟩⟩
                        · intro _
                          rfl
                      · rw [if_neg hq]
                        simp only [reduceCtorEq, false_iff]
                        rintro ⟨-, -, -, h4 | ⟨c2, hc2, htag⟩⟩
                        · exact absurd h4 (by simp)
                        · have hcc : c2 = c := by
                            simp only [List.cons.injEq, and_true] at hc2
                            exact hc2.symm
                          rw [hcc, hct] at htag
                          have : q = qn_xi_fallback := by simpa using htag
                          exact hq this
              | cons c2 rest2 =>
                  dsimp only
                  simp only [reduceCtorEq, false_iff]
                  rintro ⟨-, -, -, h4 | ⟨c3, hc3, -⟩⟩
                  · exact absurd h4 (by simp)
                  · simp at hc3

/-- Witness for C7: a well-formed directive (`href` only, no children)
passes validation. -/
theorem claim_c7_witness : validate_xinclude ex7_elem = .ok () :=
  (claim_c7_validate_iff ex7_elem).mpr
    ⟨by decide, by decide, by decide, Or.inl rfl⟩

mutual

theorem markTree_suffix : ∀ (s : String) (path : List Nat) (e : Elem),
    markTree "suffix" s path e = .ok (suffixMarkAll s e)
  | s, path, .mk t a x y cs => by
      have hl := markTreeL_suffix s path 0 cs
      cases hid : attrOf a qn_xml_id with
      | none =>
          simp only [markTree, suffixMarkAll, hid, hl]
          rfl
      | some cur =>
          simp only [markTree, suffixMarkAll, hid, hl]
          rfl

theorem markTreeL_suffix : ∀ (s : String) (path : List Nat) (i : Nat) (cs : List Elem),
    markTreeL "suffix" s path i cs = .ok (suffixMarkAllL s cs)
  | _, _, _, [] => rfl
  | s, path, i, c :: cs => by
      have hc := markTree_suffix s (path ++ [i]) c
      have hcs := markTreeL_suffix s path (i + 1) cs
      simp only [markTreeL, suffixMarkAllL, hc, hcs]
      rfl

end

/-- C8 — the claim amended no further than the counterexample forces:
suffix marking is applied once per enclosing scope, not once per
element.  Each `associate_new_ids` call on a scope root whose own
`idfixup` is `suffix` resolves the effective suffix (fatal if absent)
and appends it to every id-bearing element's current planned id (marker
if present, else `xml:id`), stored in the marker without overwriting
`xml:id`; nested scopes therefore compose their suffixes outermost
first.  With a single enclosing scope this reduces to the original
claim, as the end-to-end `sec1`/`-a` example shows, including the
`linkend` retarget. -/
theorem claim_c8_suffix_marking :
    (∀ (inh : Option String) (path : List Nat) (e : Elem) (s : String),
        getAttr e qn_idfixup = some "suffix" →
        (getAttr e qn_suffix).orElse (fun _ => inh) = some s →
        associate_new_ids inh path e = .ok (suffixMarkAll s e))
    ∧ (∀ (inh : Option String) (path : List Nat) (e : Elem),
        getAttr e qn_idfixup = some "suffix" →
        (getAttr e qn_suffix).orElse (fun _ => inh) = none →
        associate_new_ids inh path e = .error (.assertFail "No suffix given"))
    ∧ db_process_tree failLoader (fun _ => emptyElem) 10 ex8_doc none =
        .ok (.mk (some ⟨some ns_db, "book"⟩) [] none none
              [.mk (some ⟨some ns_db, "section"⟩) [(qn_xml_id, "sec1-a")] none none [],
               .mk (some ⟨some ns_db, "xref"⟩) [(⟨none, "linkend"⟩, "sec1-a")] none none []],
            []) := by
  refine ⟨?_, ?_, by rfl⟩
  · intro inh path e s h1 h2
    simp only [associate_new_ids, h1, h2, Option.getD_some]
    simp only [show (("suffix" : String) = "none") = False by simp, if_false,
      if_pos rfl]
    exact markTree_suffix s path e
  · intro inh path e h1 h2
    simp only [associate_new_ids, h1, h2, Option.getD_some]
    simp only [show (("suffix" : String) = "none") = False by simp, if_false,
      if_pos rfl]
    simp

/-- Witness for C8's amended statement: the inner scope of the nested
example gets its own suffix appended on top of the existing marker. -/
theorem claim_c8_witness :
    associate_new_ids none [] ex8_B = .ok (suffixMarkAll "-b" ex8_B) :=
  claim_c8_suffix_marking.1 none [] ex8_B "-b" rfl rfl

/-- C8 — counterexample to the claim as stated.  In the nested scopes
`A(idfixup=suffix, suffix=-a) > B(idfixup=suffix, suffix=-b) >
E(xml:id="x")`, the element `E`'s effective (nearest ancestor-or-self)
idfixup is `suffix` with effective suffix `-b`, so the claim predicts
planned id `"x-b"`; Pass A actually applies every enclosing scope and
produces `"x-a-b"`. -/
theorem claim_c8_counterexample :
    ((((db_passA 10 none [] ex8_A).toOption.bind (fun t => t.children[0]?)).bind
        (fun t => t.children[0]?)).bind (fun t => getAttr t qn_newid)) = some "x-a-b"
    ∧ ("x-a-b" : String) ≠ "x-b" :=
  ⟨rfl, by decide⟩

theorem all_filter_self {α : Type} (l : List α) (p : α → Bool) :
    (l.filter p).all p = true := by
  simp only [List.all_eq_true]
  intro x hx
  exact (List.mem_filter.mp hx).2

theorem trans_pred_of_newid :
    ∀ p : QNm × String, p.1 = qn_newid → (!(p.1.ns == some ns_trans)) = true := by
  intro p hp
  rw [hp]
  decide

theorem trans_pred_of_xmlid :
    ∀ p : QNm × String, p.1 = qn_xml_id → (!(p.1.ns == some ns_trans)) = true := by
  intro p hp
  rw [hp]
  decide

theorem newid_pred_of_xmlid :
    ∀ p : QNm × String, p.1 = qn_xml_id → (p.1 != qn_newid) = true := by
  intro p hp
  rw [hp]
  decide

mutual

theorem cleanOK_cleanup : ∀ e : Elem, cleanOKE (db_cleanup e) = true
  | .mk t a x y cs => by
      have hl := cleanOKL_cleanup cs
      cases hid : attrOf a qn_newid with
      | none =>
          simp only [db_cleanup, hid, cleanOKE]
          rw [attrOf_filter_none a _ qn_newid hid, hl, all_filter_self]
          rfl
      | some nid =>
          by_cases hnid : nid = ""
          · subst hnid
            simp only [db_cleanup, hid, cleanOKE]
            rw [if_neg (by simp)]
            rw [attrOf_filter a _ qn_newid trans_pred_of_newid, hid, hl, all_filter_self]
            rfl
          · simp only [db_cleanup, hid, cleanOKE]
            rw [if_pos (by simpa using hnid)]
            rw [attrOf_filter_none _ _ qn_newid (attrOf_filter_out _ qn_newid), hl,
              all_filter_self]
            rfl

theorem cleanOKL_cleanup : ∀ cs : List Elem, cleanOKL (db_cleanupL cs) = true
  | [] => rfl
  | c :: cs => by
      have h1 := cleanOK_cleanup c
      have h2 := cleanOKL_cleanup cs
      simp [db_cleanupL, cleanOKL, h1, h2]

end

/-- C9 — the claim amended no further than the counterexample forces:
after a successful run no control-namespace attribute remains anywhere,
and no New-Id Marker holding a *non-empty* value remains (each such
marker's value is copied onto the element's `xml:id` and the marker
deleted); a marker holding the empty string is skipped by the truthiness
test during cleanup and survives, its element's `xml:id` left
unchanged. -/
theorem claim_c9_cleanup :
    (∀ (L : Loader) (PF : String → Elem) (fuel : Nat) (tree : Elem)
        (base : Option String) (out : Elem) (d : List String),
        db_process_tree L PF fuel tree base = .ok (out, d) → cleanOKE out = true)
    ∧ (∀ e : Elem, truthy (getAttr e qn_newid) = true →
        getAttr (db_cleanup e) qn_xml_id = getAttr e qn_newid) := by
  constructor
  · intro L PF fuel tree base out d h
    unfold db_process_tree at h
    split at h
    · simp at h
    · split at h
      · simp at h
      · split at h
        · simp at h
        · simp only [Except.ok.injEq, Prod.mk.injEq] at h
          obtain ⟨hout, -⟩ := h
          rw [← hout]
          exact cleanOK_cleanup _
  · intro e htr
    cases e with
    | mk t a x y cs =>
        have hgm : getAttr (Elem.mk t a x y cs) qn_newid = attrOf a qn_newid := rfl
        cases hid : attrOf a qn_newid with
        | none =>
            rw [hgm, hid] at htr
            exact absurd htr (by decide)
        | some nid =>
            have hnid : ¬ nid = "" := by
              rw [hgm, hid] at htr
              simpa [truthy] using htr
            have e1 : db_cleanup (Elem.mk t a x y cs)
                = Elem.mk t
                    (((setAttrList a qn_xml_id nid).filter
                        (fun p => p.1 != qn_newid)).filter
                      (fun p => !(p.1.ns == some ns_trans)))
                    x y (db_cleanupL cs) := by
              simp only [db_cleanup, hid]
              rw [if_pos (by simpa using hnid)]
            rw [e1]
            have hgm2 : ∀ a2 : List (QNm × String),
                getAttr (Elem.mk t a2 x y (db_cleanupL cs)) qn_xml_id = attrOf a2 qn_xml_id :=
              fun _ => rfl
            rw [hgm2, attrOf_filter _ _ qn_xml_id trans_pred_of_xmlid,
              attrOf_filter _ _ qn_xml_id newid_pred_of_xmlid,
              attrOf_setAttrList_self, hgm, hid]

/-- Witness for C9's amended invariant: the successful run on the
`xml:id=""` document satisfies the cleanup invariant. -/
theorem claim_c9_witness :
    cleanOKE (.mk (some ⟨some ns_db, "book"⟩) [(qn_xml_id, ""), (qn_newid, "")]
        none none []) = true :=
  claim_c9_cleanup.1 failLoader (fun _ => emptyElem) 10 ex9_doc none
    (.mk (some ⟨some ns_db, "book"⟩) [(qn_xml_id, ""), (qn_newid, "")] none none [])
    [] rfl

/-- C9 — counterexample to the claim as stated.  The document
`<book xml:id="" trans:idfixup="suffix" trans:suffix=""/>` processes to
successful completion, yet the output root still carries the
scratch-namespace New-Id Marker `dbxi:newid=""`: the cleanup loop tests
the marker with Python truthiness, so an empty marker is neither copied
onto `xml:id` nor deleted. -/
theorem claim_c9_counterexample :
    (db_process_tree failLoader (fun _ => emptyElem) 10 ex9_doc none).toOption.map
        (fun p => getAttr p.1 qn_newid) = some (some "") := by
  rfl

/-- C3 — confirmed.  When the resource fetch of a directive fails:
without an `xi:fallback` child the `ResourceError` propagates as fatal
(first clause, for any directive whose fetch fails); with a fallback the
fallback's content is recursively resolved and spliced in place of the
directive, the directive's trailing text is carried over, the resource
error is emitted as a non-fatal diagnostic, and processing continues
(second clause: the concrete `missing.xml` / `"N/A"` document resolves
to a tree holding the fallback text plus the carried tail, with the
error message on the diagnostic stream). -/
theorem claim_c3_fallback :
    (∀ (L : Loader) (PF : String → Elem) (n : Nat) (ancBase base : Option String)
        (parent elem : Elem) (i : Nat) (stack : List String) (bu m : String),
        parent.children[i]? = some elem →
        elem.tag = some qn_xi_include →
        getAttr elem ⟨none, "xpointer"⟩ = none →
        validate_xinclude elem = .ok () →
        ((getAttr elem qn_xml_base).orElse (fun _ => ancBase)).orElse
            (fun _ => base) = some bu →
        get_target L elem bu = .error (.resource m) →
        elem.children = [] →
        handle_xinclude L PF (n + 2) ancBase parent i base stack =
          .error (.resource m))
    ∧ process_tree failLoader (fun _ => emptyElem) 20 none ex3_root (some "d/f.xml") [] =
        .ok (.mk (some ⟨none, "r"⟩) [(qn_xml_base, "d/f.xml")] (some "N/AT") none [],
             ["Could not get target " ++ pyrepr "d/missing.xml"]) := by
  constructor
  · intro L PF n ancBase base parent elem i stack bu m h1 h2 h3 h4 h5 h6 h7
    simp [handle_xinclude, handle_xifallback, h1, h2, h3, h4, h5, h6, h7]
  · rfl

/-- Witness for C3's no-fallback clause at a concrete directive. -/
theorem claim_c3_witness :
    handle_xinclude failLoader (fun _ => emptyElem) 2 (some "d/f.xml")
        (.mk (some ⟨none, "p"⟩) [] none none
          [.mk (some qn_xi_include) [(⟨none, "href"⟩, "missing.xml")] none none []])
        0 none [] =
      .error (.resource ("Could not get target " ++ pyrepr "d/missing.xml")) :=
  claim_c3_fallback.1 failLoader (fun _ => emptyElem) 0 (some "d/f.xml") none
    (.mk (some ⟨none, "p"⟩) [] none none
      [.mk (some qn_xi_include) [(⟨none, "href"⟩, "missing.xml")] none none []])
    (.mk (some qn_xi_include) [(⟨none, "href"⟩, "missing.xml")] none none [])
    0 [] "d/f.xml" ("Could not get target " ++ pyrepr "d/missing.xml")
    rfl rfl rfl rfl rfl rfl rfl

/-- C4 — confirmed.  For parse="xml" inclusion the cycle key is the
(resolved location, fragid) pair: whenever the key is already on the
guard the resolution aborts fatally with the recursion error before any
content is spliced (first clause); the concrete self-including `b.xml`
document aborts the whole run with that error and produces no output
(second clause); and because each recursive call receives its own
extended copy of the guard, two sibling directives both including
`a.xml` resolve successfully (third clause) — a shared mutable guard
would flag the second sibling. -/
theorem claim_c4_cycle_guard :
    (∀ (L : Loader) (PF : String → Elem) (n : Nat) (ancBase base : Option String)
        (parent elem : Elem) (i : Nat) (stack : List String) (bu content url : String),
        parent.children[i]? = some elem →
        elem.tag = some qn_xi_include →
        getAttr elem ⟨none, "xpointer"⟩ = none →
        validate_xinclude elem = .ok () →
        ((getAttr elem qn_xml_base).orElse (fun _ => ancBase)).orElse
            (fun _ => base) = some bu →
        get_target L elem bu = .ok (content, url) →
        (getAttr elem ⟨none, "parse"⟩).getD "xml" = "xml" →
        mkKey url (getAttr elem ⟨none, "fragid"⟩) ∈ stack →
        handle_xinclude L PF (n + 1) ancBase parent i base stack =
          .error (.dbxi "Infinite recursion detected"))
    ∧ process_tree ex4_loader ex4_parse 20 none ex4_cycle (some "d/f.xml") [] =
        .error (.dbxi "Infinite recursion detected")
    ∧ process_tree ex4_loader ex4_parse 20 none ex4_diamond (some "d/f.xml") [] =
        .ok (.mk (some ⟨none, "r"⟩) [(qn_xml_base, "d/f.xml")] none none
              [.mk (some ⟨none, "x"⟩) [(qn_xml_base, "d/a.xml")] none none [],
               .mk (some ⟨none, "x"⟩) [(qn_xml_base, "d/a.xml")] none none []], []) := by
  refine ⟨?_, by rfl, by rfl⟩
  intro L PF n ancBase base parent elem i stack bu content url h1 h2 h3 h4 h5 h6 h7 h8
  simp [handle_xinclude, h1, h2, h3, h4, h5, h6, getAttr_withTail, h7, h8]

/-- Witness for C4's abort clause: the inner `b.xml` directive with its
own key already on the guard. -/
theorem claim_c4_witness :
    handle_xinclude ex4_loader ex4_parse 1 (some "d/f.xml")
        (.mk (some ⟨none, "p"⟩) [] none none [ex4_binner]) 0 none
        [mkKey "d/b.xml" none] = .error (.dbxi "Infinite recursion detected") :=
  claim_c4_cycle_guard.1 ex4_loader ex4_parse 0 (some "d/f.xml") none
    (.mk (some ⟨none, "p"⟩) [] none none [ex4_binner]) ex4_binner 0
    [mkKey "d/b.xml" none] "d/f.xml" "B" "d/b.xml"
    rfl rfl rfl rfl rfl rfl rfl (List.mem_singleton.mpr rfl)
